import Mathlib

/-!
Verification of the file-browser upload/delete orchestration model
(src/static/js/file-browser.js) and of the server-side registries it
talks to (modelled from the specification where the server code is not
part of this repository).
-/

/-- A file selected for upload in the browser file input.
`webkitRelativePath` is the declared relative path inside a selected
directory; the browser supplies the empty string for plain file
selections (JS treats the empty string as falsy). -/
structure BatchFile where
  name : String
  webkitRelativePath : String
  size : Nat
deriving DecidableEq

/-- Outcome of one XMLHttpRequest transfer in uploadFileWithProgress:
the load event carries an HTTP status; the error event is a
network-level failure; the abort event cancels the transfer.  The
error and abort events reject the promise. -/
inductive TransferResult where
  | completed (status : Nat)
  | netError
  | aborted
deriving DecidableEq

/-- Success classification from uploadFileWithProgress: the resolved
value has ok true exactly when 200 <= status < 300; a rejected promise
(netError or aborted) is caught by performUpload and counted as a
failure. -/
def uploadSuccess : TransferResult → Bool
  | .completed status => decide (200 ≤ status ∧ status < 300)
  | .netError => false
  | .aborted => false

/-- The inputs performUpload reads from the modal before the loop:
the selected files, the folder-mode radio, the target folder (already
stripped of leading/trailing slashes), the access key, the protection
checkbox and the protection password field. -/
structure UploadBatch where
  files : List BatchFile
  isFolderMode : Bool
  targetPath : String
  key : String
  protectChecked : Bool
  protectionPasswordField : String
deriving DecidableEq

/-- Per-file target path from performUpload: in folder mode with a
nonempty declared relative path, backslashes are normalized and the
whole declared path is appended under the target; otherwise the bare
file name is appended. -/
def uploadRelPath (b : UploadBatch) (f : BatchFile) : String :=
  if b.isFolderMode ∧ f.webkitRelativePath ≠ "" then
    let relativePath := f.webkitRelativePath.replace "\\" "/"
    if b.targetPath ≠ "" then b.targetPath ++ "/" ++ relativePath else relativePath
  else
    if b.targetPath ≠ "" then b.targetPath ++ "/" ++ f.name else f.name

/-- folderBasePath from performUpload: in folder mode, when the first
file declares a relative path, the first slash-separated segment of
that path (the synthetic top-level folder name) is joined under the
target path; otherwise it stays null. -/
def folderBasePath (b : UploadBatch) : Option String :=
  match b.files with
  | [] => none
  | f :: _ =>
    if b.isFolderMode ∧ f.webkitRelativePath ≠ "" then
      let firstPath := f.webkitRelativePath.replace "\\" "/"
      let folderName := (firstPath.splitOn "/").headD ""
      some (if b.targetPath ≠ "" then b.targetPath ++ "/" ++ folderName else folderName)
    else none

/-- The three mutable counters of performUpload's loop. -/
structure LoopState where
  successCount : Nat
  failCount : Nat
  totalLoaded : Nat
deriving DecidableEq

/-- One iteration of performUpload's loop body: a successful result
increments successCount, anything else increments failCount, and the
file's declared size is added to totalLoaded either way. -/
def uploadStep (st : LoopState) (fr : BatchFile × TransferResult) : LoopState :=
  if uploadSuccess fr.2 then
    { successCount := st.successCount + 1, failCount := st.failCount,
      totalLoaded := st.totalLoaded + fr.1.size }
  else
    { successCount := st.successCount, failCount := st.failCount + 1,
      totalLoaded := st.totalLoaded + fr.1.size }

/-- performUpload's for-loop over the files, each paired with its
transfer result; the loop never aborts early. -/
def uploadLoop : LoopState → List (BatchFile × TransferResult) → LoopState
  | st, [] => st
  | st, fr :: rest => uploadLoop (uploadStep st fr) rest

/-- Run the whole batch loop from zeroed counters, pairing each file
with its transfer result in order. -/
def runUploadLoop (b : UploadBatch) (results : List TransferResult) : LoopState :=
  uploadLoop ⟨0, 0, 0⟩ (b.files.zip results)

/-- grandTotal from performUpload: the sum of the declared sizes of
all files in the batch. -/
def grandTotal (b : UploadBatch) : Nat :=
  (b.files.map (fun f => f.size)).sum

/-- Overall percent from updateProgressUI: grandTotal > 0 ?
Math.round(totalLoaded / grandTotal * 100) : 0.  For a nonnegative
rational x, Math.round x = floor (x + 1/2), so the rounded percent is
floor ((200 * totalLoaded + grandTot) / (2 * grandTot)). -/
def overallPercent (totalLoaded grandTot : Nat) : Nat :=
  if 0 < grandTot then (200 * totalLoaded + grandTot) / (2 * grandTot) else 0

/-- The JSON body of the deferred /api/set-path-protection request
issued after the loop. -/
structure ProtectionRequest where
  path : String
  password : String
  key : String
deriving DecidableEq

/-- The deferred protection-set decision after the loop: the request
is issued exactly when protectFolder (folder mode and the protection
checkbox) holds, at least one file succeeded, and folderBasePath is
non-null; it carries folderBasePath, the protection password field and
the same access key used for the uploads. -/
def protectionCall (b : UploadBatch) (successCount : Nat) : Option ProtectionRequest :=
  if b.isFolderMode ∧ b.protectChecked ∧ 0 < successCount then
    (folderBasePath b).map (fun p => ⟨p, b.protectionPasswordField, b.key⟩)
  else none

/-- The batch's reported counts; the deferred protection call sits in
a try/catch that only logs, so its outcome is not an input to the
counts. -/
def batchResult (b : UploadBatch) (results : List TransferResult)
    (_protectCallOk : Bool) : Nat × Nat :=
  ((runUploadLoop b results).successCount, (runUploadLoop b results).failCount)

/-- The totalLoaded values passed to updateProgressUI across the
batch: each file contributes its progress-event loaded values on top
of the accumulated base (fileStartLoaded), and after the file the base
grows by the file's declared size.  Each list element is a pair of the
file's declared size and its loaded-value trace. -/
def progressTotals : Nat → List (Nat × List Nat) → List Nat
  | _, [] => []
  | base, p :: rest =>
    p.2.map (fun loaded => base + loaded) ++ progressTotals (base + p.1) rest

/-- The overall percents reported across the batch's progress events. -/
def progressPercents (fs : List (Nat × List Nat)) (grandTot : Nat) : List Nat :=
  (progressTotals 0 fs).map (fun tl => overallPercent tl grandTot)

/-- Client delete-mode entry decision from setupDeleteMode: the Enter
button computes keyAttempt (undefined when the input is absent) and
enters delete mode exactly when keyAttempt is a string of positive
length; no request to the server is made at that point. -/
def deleteModeEntryAllowed : Option String → Bool
  | some keyAttempt => decide (0 < keyAttempt.length)
  | none => false

/-- The request performDelete sends: a POST to /api/delete-items with
the entered key in the X-Delete-Key header and the selected items in
the JSON body. -/
structure DeleteRequest where
  url : String
  xDeleteKey : String
  items_to_delete : List String
deriving DecidableEq

/-- Builds the /api/delete-items request exactly as performDelete
does. -/
def buildDeleteRequest (itemsToDelete : List String) (deleteKey : String) : DeleteRequest :=
  ⟨"/api/delete-items", deleteKey, itemsToDelete⟩

/-- A server-side path as a list of slash-separated segments. -/
abbrev RegPath := List String

/-- Modelled from the spec: the ancestor-inclusive relation between
normalized paths — a path is an ancestor of another when its segment
list is an initial run of the other's (a path counts as its own
ancestor). -/
def isAncestorOf : RegPath → RegPath → Bool
  | [], _ => true
  | _ :: _, [] => false
  | a :: as, b :: bs => (a == b) && isAncestorOf as bs

/-- Modelled from the spec: the longest-match-wins tie-break of the
ProtectionRegistry lookup — a candidate entry displaces the best match
so far only when it is strictly deeper.  The server-side registry code
is not part of this repository; only its client callers are. -/
def chooseDeeper (e : RegPath × String) : Option (RegPath × String) → Option (RegPath × String)
  | none => some e
  | some b2 => if b2.1.length < e.1.length then some e else some b2

/-- Modelled from the spec: the registry scan keeping the matching
entry of greatest depth, one candidate at a time. -/
def bestMatch : List (RegPath × String) → RegPath → Option (RegPath × String)
  | [], _ => none
  | e :: rest, p =>
    if isAncestorOf e.1 p then chooseDeeper e (bestMatch rest p)
    else bestMatch rest p

/-- Modelled from the spec: isProtected(path) returns the key of the
nearest ancestor (inclusive) with a ProtectionEntry, or none. -/
def isProtected (reg : List (RegPath × String)) (p : RegPath) : Option String :=
  (bestMatch reg p).map Prod.snd

/-- Result record of the delete endpoint: success and failure counts
plus per-item errors in input order. -/
structure DeleteBatchResult where
  success_count : Nat
  fail_count : Nat
  errors : List (RegPath × String)
deriving DecidableEq

/-- Modelled from the spec: the storage backend's recursive removal —
the target and everything below it leave the filesystem (a list of
stored paths); the returned flag reports whether the target existed. -/
def removeRecursive (fs : List RegPath) (target : RegPath) : List RegPath × Bool :=
  if fs.contains target then
    (fs.filter (fun q => !(isAncestorOf target q)), true)
  else (fs, false)

/-- Modelled from the spec: the DeleteOrchestrator's per-item loop —
each path is attempted independently, a failure on one path does not
block the rest, and errors keep input order. -/
def deleteLoop : List RegPath → List RegPath → DeleteBatchResult → List RegPath × DeleteBatchResult
  | fs, [], acc => (fs, acc)
  | fs, t :: rest, acc =>
    match removeRecursive fs t with
    | (fs2, true) =>
      deleteLoop fs2 rest { acc with success_count := acc.success_count + 1 }
    | (_, false) =>
      deleteLoop fs rest
        { acc with fail_count := acc.fail_count + 1, errors := acc.errors ++ [(t, "Not found")] }

/-- Modelled from the spec: the server-side /api/delete-items handler
(not part of this repository) — the supplied key is validated once
against the configured global delete key before anything else; a
mismatch fails the whole batch before any filesystem mutation. -/
def deleteItems (globalDeleteKey suppliedKey : String) (fs : List RegPath)
    (items : List RegPath) : List RegPath × DeleteBatchResult :=
  if suppliedKey = globalDeleteKey then
    deleteLoop fs items ⟨0, 0, []⟩
  else
    (fs, ⟨0, items.length, items.map (fun t => (t, "Invalid key"))⟩)

theorem uploadStep_counts (st : LoopState) (fr : BatchFile × TransferResult) :
    (uploadStep st fr).successCount + (uploadStep st fr).failCount
      = st.successCount + st.failCount + 1
    ∧ (uploadStep st fr).totalLoaded = st.totalLoaded + fr.1.size := by
  unfold uploadStep
  split <;> simp <;> omega

theorem uploadLoop_counts (l : List (BatchFile × TransferResult)) (st : LoopState) :
    (uploadLoop st l).successCount + (uploadLoop st l).failCount
      = st.successCount + st.failCount + l.length
    ∧ (uploadLoop st l).totalLoaded = st.totalLoaded + (l.map (fun x => x.1.size)).sum := by
  induction l generalizing st with
  | nil => simp [uploadLoop]
  | cons fr rest ih =>
    have hstep := uploadStep_counts st fr
    have h := ih (uploadStep st fr)
    simp only [uploadLoop, List.map_cons, List.sum_cons, List.length_cons]
    constructor
    · omega
    · omega

/-- C2: every file of the batch is attempted exactly once and
classified as exactly one of success or failure, so after the loop
successCount + failCount equals the number of files in the batch. -/
theorem upload_counts_partition (b : UploadBatch) (results : List TransferResult)
    (hlen : results.length = b.files.length) :
    (runUploadLoop b results).successCount + (runUploadLoop b results).failCount
      = b.files.length := by
  have h := (uploadLoop_counts (b.files.zip results) ⟨0, 0, 0⟩).1
  unfold runUploadLoop
  rw [h]
  simp [List.length_zip, hlen]

/-- C2 witness: a concrete three-file batch with one failure. -/
theorem upload_counts_partition_witness :
    ([TransferResult.completed 201, TransferResult.netError,
      TransferResult.completed 204].length
        = ({ files := [⟨"a.txt", "", 3⟩, ⟨"b.txt", "", 5⟩, ⟨"c.txt", "", 7⟩],
             isFolderMode := false, targetPath := "docs", key := "k",
             protectChecked := false, protectionPasswordField := "" } :
               UploadBatch).files.length)
    ∧ (runUploadLoop
        { files := [⟨"a.txt", "", 3⟩, ⟨"b.txt", "", 5⟩, ⟨"c.txt", "", 7⟩],
          isFolderMode := false, targetPath := "docs", key := "k",
          protectChecked := false, protectionPasswordField := "" }
        [TransferResult.completed 201, TransferResult.netError,
         TransferResult.completed 204]).successCount
      + (runUploadLoop
        { files := [⟨"a.txt", "", 3⟩, ⟨"b.txt", "", 5⟩, ⟨"c.txt", "", 7⟩],
          isFolderMode := false, targetPath := "docs", key := "k",
          protectChecked := false, protectionPasswordField := "" }
        [TransferResult.completed 201, TransferResult.netError,
         TransferResult.completed 204]).failCount = 3 :=
  ⟨by decide,
   upload_counts_partition
     { files := [⟨"a.txt", "", 3⟩, ⟨"b.txt", "", 5⟩, ⟨"c.txt", "", 7⟩],
       isFolderMode := false, targetPath := "docs", key := "k",
       protectChecked := false, protectionPasswordField := "" }
     [TransferResult.completed 201, TransferResult.netError,
      TransferResult.completed 204]
     (by decide)⟩

/-- C4: a transfer is classified as a success exactly when its HTTP
status lies in the 200 to 299 range; a network-level error is a
failure, and the loop counts it as such and proceeds with the
remaining files rather than aborting. -/
theorem transfer_classification :
    (∀ r : TransferResult,
      uploadSuccess r = true ↔ ∃ s, r = .completed s ∧ 200 ≤ s ∧ s < 300)
    ∧ (∀ (f : BatchFile) (rest : List (BatchFile × TransferResult)) (st : LoopState),
        uploadLoop st ((f, .netError) :: rest)
          = uploadLoop
              { successCount := st.successCount, failCount := st.failCount + 1,
                totalLoaded := st.totalLoaded + f.size } rest) := by
  constructor
  · intro r
    cases r with
    | completed s =>
      simp [uploadSuccess]
    | netError => simp [uploadSuccess]
    | aborted => simp [uploadSuccess]
  · intro f rest st
    simp [uploadLoop, uploadStep, uploadSuccess]

/-- C10: the overall-percent computation is guarded against a zero
grand total — when grandTotal is zero it reports 0 rather than
dividing by zero. -/
theorem overallPercent_zero_grandTotal (totalLoaded : Nat) :
    overallPercent totalLoaded 0 = 0 := by
  simp [overallPercent]

theorem zip_size_sum : ∀ (fs : List BatchFile) (rs : List TransferResult),
    rs.length = fs.length →
    ((fs.zip rs).map (fun x => x.1.size)).sum = (fs.map (fun f => f.size)).sum := by
  intro fs
  induction fs with
  | nil => intro rs h; simp
  | cons f fs ih =>
    intro rs h
    cases rs with
    | nil => simp at h
    | cons r rs =>
      simp only [List.zip_cons_cons, List.map_cons, List.sum_cons]
      rw [ih rs (by simpa using h)]

/-- C8 counterexample: a batch of one zero-byte file whose transfer
fails — the accumulated counter does equal the grand total, yet the
final progress update computes overallPercent grandTotal grandTotal =
0, not 100, because the grand total is zero. -/
theorem upload_final_percent_cex :
    (runUploadLoop
        { files := [⟨"empty.txt", "", 0⟩], isFolderMode := false, targetPath := "docs",
          key := "k", protectChecked := false, protectionPasswordField := "" }
        [TransferResult.netError]).totalLoaded
      = grandTotal
        { files := [⟨"empty.txt", "", 0⟩], isFolderMode := false, targetPath := "docs",
          key := "k", protectChecked := false, protectionPasswordField := "" }
    ∧ (runUploadLoop
        { files := [⟨"empty.txt", "", 0⟩], isFolderMode := false, targetPath := "docs",
          key := "k", protectChecked := false, protectionPasswordField := "" }
        [TransferResult.netError]).failCount = 1
    ∧ overallPercent
        (grandTotal
          { files := [⟨"empty.txt", "", 0⟩], isFolderMode := false, targetPath := "docs",
            key := "k", protectChecked := false, protectionPasswordField := "" })
        (grandTotal
          { files := [⟨"empty.txt", "", 0⟩], isFolderMode := false, targetPath := "docs",
            key := "k", protectChecked := false, protectionPasswordField := "" })
      ≠ 100 := by
  decide

/-- C8 amended: after the loop the accumulated loaded-bytes counter
equals the batch's grand total of declared sizes — each file's full
size is added whether it succeeded or failed — and the final progress
update therefore reports 100 percent whenever the grand total is
positive (a batch whose grand total is zero reports 0 percent). -/
theorem upload_totalLoaded_complete (b : UploadBatch) (results : List TransferResult)
    (hlen : results.length = b.files.length) :
    (runUploadLoop b results).totalLoaded = grandTotal b
    ∧ (0 < grandTotal b → overallPercent (grandTotal b) (grandTotal b) = 100) := by
  constructor
  · have h := (uploadLoop_counts (b.files.zip results) ⟨0, 0, 0⟩).2
    unfold runUploadLoop
    rw [h, zip_size_sum b.files results hlen]
    simp [grandTotal]
  · intro hpos
    unfold overallPercent
    rw [if_pos hpos]
    exact Nat.div_eq_of_lt_le (by omega) (by omega)

/-- C8 amended witness: a two-file batch, one success and one network
failure, with a positive grand total. -/
theorem upload_totalLoaded_complete_witness :
    ([TransferResult.completed 200, TransferResult.netError].length
        = ({ files := [⟨"a.txt", "", 4⟩, ⟨"b.txt", "", 6⟩], isFolderMode := false,
             targetPath := "", key := "k", protectChecked := false,
             protectionPasswordField := "" } : UploadBatch).files.length)
    ∧ ((runUploadLoop
          { files := [⟨"a.txt", "", 4⟩, ⟨"b.txt", "", 6⟩], isFolderMode := false,
            targetPath := "", key := "k", protectChecked := false,
            protectionPasswordField := "" }
          [TransferResult.completed 200, TransferResult.netError]).totalLoaded
        = grandTotal
          { files := [⟨"a.txt", "", 4⟩, ⟨"b.txt", "", 6⟩], isFolderMode := false,
            targetPath := "", key := "k", protectChecked := false,
            protectionPasswordField := "" }
      ∧ (0 < grandTotal
            { files := [⟨"a.txt", "", 4⟩, ⟨"b.txt", "", 6⟩], isFolderMode := false,
              targetPath := "", key := "k", protectChecked := false,
              protectionPasswordField := "" }
          → overallPercent
              (grandTotal
                { files := [⟨"a.txt", "", 4⟩, ⟨"b.txt", "", 6⟩], isFolderMode := false,
                  targetPath := "", key := "k", protectChecked := false,
                  protectionPasswordField := "" })
              (grandTotal
                { files := [⟨"a.txt", "", 4⟩, ⟨"b.txt", "", 6⟩], isFolderMode := false,
                  targetPath := "", key := "k", protectChecked := false,
                  protectionPasswordField := "" }) = 100)) :=
  ⟨by decide,
   upload_totalLoaded_complete
     { files := [⟨"a.txt", "", 4⟩, ⟨"b.txt", "", 6⟩], isFolderMode := false,
       targetPath := "", key := "k", protectChecked := false,
       protectionPasswordField := "" }
     [TransferResult.completed 200, TransferResult.netError]
     (by decide)⟩

/-- C6: when the supplied delete key does not match the configured
global delete key, the whole batch fails before any filesystem
mutation — the filesystem is returned unchanged and success_count is
zero. -/
theorem delete_wrong_key_no_mutation (globalDeleteKey suppliedKey : String)
    (fs items : List RegPath) (h : suppliedKey ≠ globalDeleteKey) :
    (deleteItems globalDeleteKey suppliedKey fs items).1 = fs
    ∧ (deleteItems globalDeleteKey suppliedKey fs items).2.success_count = 0 := by
  simp [deleteItems, h]

/-- C6 witness: a wrong key against a one-entry filesystem. -/
theorem delete_wrong_key_no_mutation_witness :
    ("wrong" ≠ "secret")
    ∧ ((deleteItems "secret" "wrong" [["a"]] [["a"]]).1 = [["a"]]
      ∧ (deleteItems "secret" "wrong" [["a"]] [["a"]]).2.success_count = 0) :=
  ⟨by decide, delete_wrong_key_no_mutation "secret" "wrong" [["a"]] [["a"]] (by decide)⟩

/-- C9: entering delete mode on the client needs only a non-empty key
string — the decision consults nothing but the entered string, so an
arbitrary wrong non-empty key enables delete mode — and the key is
first sent to the server only with the delete batch, as the
X-Delete-Key header of the POST to /api/delete-items. -/
theorem delete_mode_client_gate (keyAttempt : String) (items : List String)
    (hne : 0 < keyAttempt.length) :
    deleteModeEntryAllowed (some keyAttempt) = true
    ∧ (buildDeleteRequest items keyAttempt).url = "/api/delete-items"
    ∧ (buildDeleteRequest items keyAttempt).xDeleteKey = keyAttempt := by
  refine ⟨?_, rfl, rfl⟩
  simp [deleteModeEntryAllowed, hne]

/-- C9 witness: a key that matches no plausible configured key still
enables delete mode and is carried in the header. -/
theorem delete_mode_client_gate_witness :
    (0 < ("totally-wrong" : String).length)
    ∧ (deleteModeEntryAllowed (some "totally-wrong") = true
      ∧ (buildDeleteRequest ["a.txt"] "totally-wrong").url = "/api/delete-items"
      ∧ (buildDeleteRequest ["a.txt"] "totally-wrong").xDeleteKey = "totally-wrong") :=
  ⟨by decide, delete_mode_client_gate "totally-wrong" ["a.txt"] (by decide)⟩

/-- C5: in folder mode the declared relative path is prepended under
the target in full — nothing is stripped — and the deferred protection
path is the target joined with the first segment of the first file's
declared relative path. -/
theorem folder_mode_target_paths (b : UploadBatch) (f0 : BatchFile) (rest : List BatchFile)
    (f : BatchFile)
    (hfiles : b.files = f0 :: rest)
    (hmode : b.isFolderMode = true)
    (htarget : b.targetPath ≠ "")
    (hrel : f.webkitRelativePath ≠ "")
    (hrel0 : f0.webkitRelativePath ≠ "") :
    uploadRelPath b f = b.targetPath ++ "/" ++ f.webkitRelativePath.replace "\\" "/"
    ∧ folderBasePath b
        = some (b.targetPath ++ "/"
            ++ ((f0.webkitRelativePath.replace "\\" "/").splitOn "/").headD "") := by
  constructor
  · unfold uploadRelPath
    rw [if_pos ⟨hmode, hrel⟩, if_pos htarget]
  · unfold folderBasePath
    rw [hfiles]
    simp only
    rw [if_pos ⟨hmode, hrel0⟩, if_pos htarget]

/-- A sample file declared inside a selected directory, shared by the
concrete instantiations below. -/
def sampleFolderFile : BatchFile := ⟨"r.txt", "photos/2024/r.txt", 5⟩

/-- A sample folder-mode batch with protection requested, shared by
the concrete instantiations below. -/
def sampleFolderBatch : UploadBatch :=
  { files := [sampleFolderFile], isFolderMode := true, targetPath := "media",
    key := "k", protectChecked := true, protectionPasswordField := "x" }

/-- C5 witness: the sample folder batch at its first file. -/
theorem folder_mode_target_paths_witness :
    (sampleFolderBatch.files = sampleFolderFile :: []
      ∧ sampleFolderBatch.isFolderMode = true
      ∧ sampleFolderBatch.targetPath ≠ ""
      ∧ sampleFolderFile.webkitRelativePath ≠ "")
    ∧ (uploadRelPath sampleFolderBatch sampleFolderFile
        = sampleFolderBatch.targetPath ++ "/"
            ++ sampleFolderFile.webkitRelativePath.replace "\\" "/"
      ∧ folderBasePath sampleFolderBatch
        = some (sampleFolderBatch.targetPath ++ "/"
            ++ ((sampleFolderFile.webkitRelativePath.replace "\\" "/").splitOn "/").headD "")) :=
  ⟨⟨rfl, rfl, by decide, by decide⟩,
   folder_mode_target_paths sampleFolderBatch sampleFolderFile [] sampleFolderFile
     rfl rfl (by decide) (by decide) (by decide)⟩

/-- C1: in a folder-mode batch with protection requested, the single
deferred protection-set request exists if and only if at least one
file succeeded; when it exists it carries the batch's access key, the
supplied protection password and the batch's folder root; and its
outcome does not change the batch's reported counts. -/
theorem protect_deferred_call (b : UploadBatch) (f0 : BatchFile) (rest : List BatchFile)
    (results : List TransferResult)
    (hfiles : b.files = f0 :: rest)
    (hmode : b.isFolderMode = true)
    (hprot : b.protectChecked = true)
    (hrel0 : f0.webkitRelativePath ≠ "") :
    ((protectionCall b (runUploadLoop b results).successCount).isSome
        ↔ 0 < (runUploadLoop b results).successCount)
    ∧ (∀ req, protectionCall b (runUploadLoop b results).successCount = some req →
        req.key = b.key ∧ req.password = b.protectionPasswordField
          ∧ some req.path = folderBasePath b)
    ∧ (∀ ok1 ok2 : Bool, batchResult b results ok1 = batchResult b results ok2) := by
  have hfb : ∃ p, folderBasePath b = some p := by
    unfold folderBasePath
    rw [hfiles]
    simp [hmode, hrel0]
  obtain ⟨p, hp⟩ := hfb
  refine ⟨?_, ?_, fun ok1 ok2 => rfl⟩
  · unfold protectionCall
    by_cases hs : 0 < (runUploadLoop b results).successCount
    · rw [if_pos ⟨hmode, hprot, hs⟩, hp]
      simp [hs]
    · rw [if_neg (fun hcon => hs hcon.2.2)]
      simp [hs]
  · intro req hreq
    unfold protectionCall at hreq
    rw [hp] at hreq
    split at hreq
    · simp only [Option.map_some'] at hreq
      injection hreq with h
      subst h
      exact ⟨rfl, rfl, hp.symm⟩
    · exact absurd hreq (by simp)

/-- C1 witness: the sample protected folder batch with one successful
transfer. -/
theorem protect_deferred_call_witness :
    (sampleFolderBatch.files = sampleFolderFile :: []
      ∧ sampleFolderBatch.isFolderMode = true
      ∧ sampleFolderBatch.protectChecked = true
      ∧ sampleFolderFile.webkitRelativePath ≠ "")
    ∧ (((protectionCall sampleFolderBatch
          (runUploadLoop sampleFolderBatch [TransferResult.completed 200]).successCount).isSome
        ↔ 0 < (runUploadLoop sampleFolderBatch [TransferResult.completed 200]).successCount)
      ∧ (∀ req, protectionCall sampleFolderBatch
            (runUploadLoop sampleFolderBatch [TransferResult.completed 200]).successCount
              = some req →
          req.key = sampleFolderBatch.key
            ∧ req.password = sampleFolderBatch.protectionPasswordField
            ∧ some req.path = folderBasePath sampleFolderBatch)
      ∧ (∀ ok1 ok2 : Bool,
          batchResult sampleFolderBatch [TransferResult.completed 200] ok1
            = batchResult sampleFolderBatch [TransferResult.completed 200] ok2)) :=
  ⟨⟨rfl, rfl, rfl, by decide⟩,
   protect_deferred_call sampleFolderBatch sampleFolderFile [] [TransferResult.completed 200]
     rfl rfl rfl (by decide)⟩

theorem mem_of_headQ {α : Type} {l : List α} {a : α} (h : l.head? = some a) : a ∈ l := by
  cases l with
  | nil => simp at h
  | cons x xs =>
    simp only [List.head?_cons, Option.some.injEq] at h
    subst h
    exact List.mem_cons_self x xs

theorem mem_of_getLastQ {α : Type} :
    ∀ {l : List α} {a : α}, l.getLast? = some a → a ∈ l := by
  intro l
  induction l with
  | nil => intro a h; simp at h
  | cons x xs ih =>
    intro a h
    cases xs with
    | nil =>
      simp only [List.getLast?_singleton, Option.some.injEq] at h
      subst h
      exact List.mem_cons_self x []
    | cons y ys =>
      rw [List.getLast?_cons_cons] at h
      exact List.mem_cons_of_mem x (ih h)

theorem mem_progressTotals_le :
    ∀ (fs : List (Nat × List Nat)) (base : Nat) (x : Nat),
      x ∈ progressTotals base fs → base ≤ x := by
  intro fs
  induction fs with
  | nil => intro base x hx; simp [progressTotals] at hx
  | cons p rest ih =>
    intro base x hx
    simp only [progressTotals, List.mem_append, List.mem_map] at hx
    rcases hx with ⟨l, _, rfl⟩ | hx
    · exact Nat.le_add_right base l
    · have := ih (base + p.1) x hx
      omega

theorem chain_progressTotals :
    ∀ (fs : List (Nat × List Nat)) (base : Nat),
      (∀ p ∈ fs, List.Chain' (· ≤ ·) p.2) →
      (∀ p ∈ fs, ∀ l ∈ p.2, l ≤ p.1) →
      List.Chain' (· ≤ ·) (progressTotals base fs) := by
  intro fs
  induction fs with
  | nil => intro base _ _; simp [progressTotals]
  | cons p rest ih =>
    intro base hchain hbound
    simp only [progressTotals]
    rw [List.chain'_append]
    refine ⟨?_, ?_, ?_⟩
    · exact List.chain'_map_of_chain' (fun loaded => base + loaded)
        (fun a b h => Nat.add_le_add_left h base)
        (hchain p (List.mem_cons_self p rest))
    · exact ih (base + p.1)
        (fun q hq => hchain q (List.mem_cons_of_mem p hq))
        (fun q hq => hbound q (List.mem_cons_of_mem p hq))
    · intro x hx y hy
      have hxmem : x ∈ p.2.map (fun loaded => base + loaded) :=
        mem_of_getLastQ hx
      have hymem : y ∈ progressTotals (base + p.1) rest := mem_of_headQ hy
      obtain ⟨l, hl, rfl⟩ := List.mem_map.mp hxmem
      have hlb : l ≤ p.1 := hbound p (List.mem_cons_self p rest) l hl
      have hyb : base + p.1 ≤ y := mem_progressTotals_le rest (base + p.1) y hymem
      omega

theorem overallPercent_mono {a b : Nat} (g : Nat) (h : a ≤ b) :
    overallPercent a g ≤ overallPercent b g := by
  unfold overallPercent
  split
  · exact Nat.div_le_div_right (by omega)
  · exact Nat.le_refl 0

/-- C3: across the whole sequence of progress events of a batch —
each file's loaded counter restarting at zero on top of the
accumulated base of previously attempted files' sizes — the reported
overall percent is monotonically non-decreasing, assuming each
per-file loaded trace is non-decreasing and bounded by that file's
declared size. -/
theorem upload_progress_monotone (fs : List (Nat × List Nat))
    (hchain : ∀ p ∈ fs, List.Chain' (· ≤ ·) p.2)
    (hbound : ∀ p ∈ fs, ∀ l ∈ p.2, l ≤ p.1) :
    List.Chain' (· ≤ ·) (progressPercents fs ((fs.map Prod.fst).sum)) := by
  unfold progressPercents
  exact List.chain'_map_of_chain' _ (fun a b h => overallPercent_mono _ h)
    (chain_progressTotals fs 0 hchain hbound)

/-- C3 witness: two files of sizes 10 and 5 with concrete
non-decreasing loaded traces. -/
theorem upload_progress_monotone_witness :
    ((∀ p ∈ [((10 : Nat), [0, 4, 10]), (5, [0, 5])], List.Chain' (· ≤ ·) p.2)
      ∧ (∀ p ∈ [((10 : Nat), [0, 4, 10]), (5, [0, 5])], ∀ l ∈ p.2, l ≤ p.1))
    ∧ List.Chain' (· ≤ ·)
        (progressPercents [((10 : Nat), [0, 4, 10]), (5, [0, 5])]
          (([((10 : Nat), [0, 4, 10]), (5, [0, 5])].map Prod.fst).sum)) :=
  ⟨⟨by simp [List.forall_mem_cons, List.chain'_cons], by simp [List.forall_mem_cons]⟩,
   upload_progress_monotone [((10 : Nat), [0, 4, 10]), (5, [0, 5])]
     (by simp [List.forall_mem_cons, List.chain'_cons]) (by simp [List.forall_mem_cons])⟩

theorem isAncestorOf_eq_of_length :
    ∀ (p a b : RegPath), isAncestorOf a p = true → isAncestorOf b p = true →
      a.length = b.length → a = b := by
  intro p
  induction p with
  | nil =>
    intro a b ha hb _
    cases a with
    | nil =>
      cases b with
      | nil => rfl
      | cons y ys => simp [isAncestorOf] at hb
    | cons x xs => simp [isAncestorOf] at ha
  | cons q qs ih =>
    intro a b ha hb hl
    cases a with
    | nil =>
      cases b with
      | nil => rfl
      | cons y ys => simp at hl
    | cons x xs =>
      cases b with
      | nil => simp at hl
      | cons y ys =>
        simp only [isAncestorOf, Bool.and_eq_true, beq_iff_eq] at ha hb
        have hxs : xs = ys := ih xs ys ha.2 hb.2 (by simpa using hl)
        rw [ha.1, hb.1, hxs]

theorem chooseDeeper_isSome (e : RegPath × String) (o : Option (RegPath × String)) :
    (chooseDeeper e o).isSome = true := by
  cases o with
  | none => rfl
  | some b2 =>
    simp only [chooseDeeper]
    split <;> rfl

theorem bestMatch_isSome_of_mem :
    ∀ (reg : List (RegPath × String)) (p : RegPath) (d : RegPath × String),
      d ∈ reg → isAncestorOf d.1 p = true → (bestMatch reg p).isSome = true := by
  intro reg
  induction reg with
  | nil => intro p d hd _; simp at hd
  | cons a rest ih =>
    intro p d hd hanc
    simp only [bestMatch]
    rcases List.mem_cons.mp hd with rfl | hdrest
    · rw [if_pos hanc]
      exact chooseDeeper_isSome d (bestMatch rest p)
    · by_cases ha : isAncestorOf a.1 p = true
      · rw [if_pos ha]
        exact chooseDeeper_isSome a (bestMatch rest p)
      · rw [if_neg ha]
        exact ih p d hdrest hanc

theorem bestMatch_spec :
    ∀ (reg : List (RegPath × String)) (p : RegPath) (e : RegPath × String),
      bestMatch reg p = some e → e ∈ reg ∧ isAncestorOf e.1 p = true := by
  intro reg
  induction reg with
  | nil => intro p e h; simp [bestMatch] at h
  | cons a rest ih =>
    intro p e h
    simp only [bestMatch] at h
    by_cases ha : isAncestorOf a.1 p = true
    · rw [if_pos ha] at h
      cases hb : bestMatch rest p with
      | none =>
        rw [hb] at h
        simp only [chooseDeeper] at h
        injection h with h
        subst h
        exact ⟨List.mem_cons_self a rest, ha⟩
      | some b2 =>
        rw [hb] at h
        simp only [chooseDeeper] at h
        by_cases hlen : b2.1.length < a.1.length
        · rw [if_pos hlen] at h
          injection h with h
          subst h
          exact ⟨List.mem_cons_self a rest, ha⟩
        · rw [if_neg hlen] at h
          injection h with h
          subst h
          have hr := ih p b2 hb
          exact ⟨List.mem_cons_of_mem a hr.1, hr.2⟩
    · rw [if_neg ha] at h
      have hr := ih p e h
      exact ⟨List.mem_cons_of_mem a hr.1, hr.2⟩

theorem bestMatch_maximal :
    ∀ (reg : List (RegPath × String)) (p : RegPath) (e : RegPath × String),
      bestMatch reg p = some e →
      ∀ d ∈ reg, isAncestorOf d.1 p = true → d.1.length ≤ e.1.length := by
  intro reg
  induction reg with
  | nil => intro p e h; simp [bestMatch] at h
  | cons a rest ih =>
    intro p e h d hd hanc
    simp only [bestMatch] at h
    rcases List.mem_cons.mp hd with rfl | hdrest
    · rw [if_pos hanc] at h
      cases hb : bestMatch rest p with
      | none =>
        rw [hb] at h
        simp only [chooseDeeper] at h
        injection h with h
        subst h
        exact Nat.le_refl _
      | some b2 =>
        rw [hb] at h
        simp only [chooseDeeper] at h
        by_cases hlen : b2.1.length < d.1.length
        · rw [if_pos hlen] at h
          injection h with h
          subst h
          exact Nat.le_refl _
        · rw [if_neg hlen] at h
          injection h with h
          subst h
          omega
    · by_cases ha : isAncestorOf a.1 p = true
      · rw [if_pos ha] at h
        cases hb : bestMatch rest p with
        | none =>
          have := bestMatch_isSome_of_mem rest p d hdrest hanc
          rw [hb] at this
          simp at this
        | some b2 =>
          rw [hb] at h
          simp only [chooseDeeper] at h
          have hdb : d.1.length ≤ b2.1.length := ih p b2 hb d hdrest hanc
          by_cases hlen : b2.1.length < a.1.length
          · rw [if_pos hlen] at h
            injection h with h
            subst h
            omega
          · rw [if_neg hlen] at h
            injection h with h
            subst h
            exact hdb
      · rw [if_neg ha] at h
        exact ih p e h d hdrest hanc

theorem bestMatch_eq_none :
    ∀ (reg : List (RegPath × String)) (p : RegPath),
      (∀ d ∈ reg, isAncestorOf d.1 p = false) → bestMatch reg p = none := by
  intro reg
  induction reg with
  | nil => intro p _; rfl
  | cons a rest ih =>
    intro p h
    simp only [bestMatch]
    rw [if_neg (by simp [h a (List.mem_cons_self a rest)])]
    exact ih p (fun d hd => h d (List.mem_cons_of_mem a hd))

theorem nodup_fst_inj :
    ∀ (reg : List (RegPath × String)),
      (reg.map Prod.fst).Nodup →
      ∀ e ∈ reg, ∀ d ∈ reg, e.1 = d.1 → e = d := by
  intro reg
  induction reg with
  | nil => intro _ e he; simp at he
  | cons a rest ih =>
    intro hnd e he d hd heq
    simp only [List.map_cons, List.nodup_cons] at hnd
    rcases List.mem_cons.mp he with rfl | he2
    · rcases List.mem_cons.mp hd with rfl | hd2
      · rfl
      · have hmem : e.1 ∈ rest.map Prod.fst := by
          rw [heq]
          exact List.mem_map_of_mem Prod.fst hd2
        exact absurd hmem hnd.1
    · rcases List.mem_cons.mp hd with rfl | hd2
      · have hmem : d.1 ∈ rest.map Prod.fst := by
          rw [← heq]
          exact List.mem_map_of_mem Prod.fst he2
        exact absurd hmem hnd.1
      · exact ih hnd.2 e he2 d hd2 heq

/-- C7: isProtected returns the key of the nearest — deepest, most
specific — ancestor of the path, the path itself included, that has a
protection entry, and none when no ancestor-inclusive path has one
(under the registry invariant of at most one entry per exact path). -/
theorem isProtected_nearest_ancestor (reg : List (RegPath × String)) (p : RegPath)
    (hnodup : (reg.map Prod.fst).Nodup) :
    ((∀ d ∈ reg, isAncestorOf d.1 p = false) → isProtected reg p = none)
    ∧ (∀ e ∈ reg, isAncestorOf e.1 p = true →
        (∀ d ∈ reg, isAncestorOf d.1 p = true → d.1.length ≤ e.1.length) →
        isProtected reg p = some e.2) := by
  constructor
  · intro h
    unfold isProtected
    rw [bestMatch_eq_none reg p h]
    rfl
  · intro e he hanc hmax
    have hsome := bestMatch_isSome_of_mem reg p e he hanc
    cases hb : bestMatch reg p with
    | none =>
      rw [hb] at hsome
      simp at hsome
    | some b =>
      have hspec := bestMatch_spec reg p b hb
      have hmaxb := bestMatch_maximal reg p b hb e he hanc
      have hlen : e.1.length = b.1.length :=
        Nat.le_antisymm hmaxb (hmax b hspec.1 hspec.2)
      have hpaths : e.1 = b.1 := isAncestorOf_eq_of_length p e.1 b.1 hanc hspec.2 hlen
      have heb : e = b := nodup_fst_inj reg hnodup e he b hspec.1 hpaths
      unfold isProtected
      rw [hb, ← heb]
      rfl

/-- C7 witness: among entries for a and a/b, the lookup of a/b/c
returns the key of the deeper entry a/b. -/
theorem isProtected_nearest_ancestor_witness :
    (([(["a"], "k1"), (["a", "b"], "k2")].map Prod.fst).Nodup
      ∧ (["a", "b"], "k2") ∈ [(["a"], "k1"), (["a", "b"], "k2")]
      ∧ isAncestorOf ["a", "b"] ["a", "b", "c"] = true
      ∧ (∀ d ∈ [(["a"], "k1"), (["a", "b"], "k2")],
          isAncestorOf d.1 ["a", "b", "c"] = true → d.1.length ≤ 2))
    ∧ isProtected [(["a"], "k1"), (["a", "b"], "k2")] ["a", "b", "c"] = some "k2" :=
  ⟨⟨by decide, by decide, by decide, by decide⟩,
   (isProtected_nearest_ancestor [(["a"], "k1"), (["a", "b"], "k2")] ["a", "b", "c"]
       (by decide)).2
     (["a", "b"], "k2") (by decide) (by decide) (by decide)⟩
